import Mathlib

/-!
Verification development for the Daftar long-term memory store.

The definitions below are a shallow embedding of the persistence layer
(`app/memory/db.py`), the policy engine (`app/memory/policy.py`) and the
memory tool facade (`app/tools/memory.py`).  The SQLite file is modelled as
an explicit state (`DB`) holding the `memories`, `memory_versions` and
`rate_limits` tables as lists kept in insertion order (ascending rowid,
which is how SQLite scans them for the queries at hand); every operation
returns its result together with the successor state.  Python floats for
confidence scores and overlap thresholds are modelled exactly as rationals;
`try/except` blocks around storage calls are modelled by an explicit
failure flag that selects the `except` branch.
-/

/-- Models Python `str.lower()` for the ASCII contents handled by the engine. -/
def pyLower (s : String) : String := ⟨s.data.map Char.toLower⟩

/-- Helper for `pyStrip`: drop leading whitespace of a character list. -/
def dropWS (l : List Char) : List Char := l.dropWhile Char.isWhitespace

/-- Models Python `str.strip()`: remove leading and trailing whitespace. -/
def pyStrip (s : String) : String := ⟨(dropWS ((dropWS s.data).reverse)).reverse⟩

/-- Helper for `pySplitWords`: accumulate maximal non-whitespace runs.
The accumulator holds the current word reversed. -/
def pySplitWordsAux : List Char → List Char → List String
  | [], acc => if acc.isEmpty then [] else [⟨acc.reverse⟩]
  | c :: t, acc =>
    if c.isWhitespace then
      if acc.isEmpty then pySplitWordsAux t [] else (⟨acc.reverse⟩ : String) :: pySplitWordsAux t []
    else pySplitWordsAux t (c :: acc)

/-- Models Python `str.split()` with no argument: split on whitespace runs,
producing no empty tokens. -/
def pySplitWords (s : String) : List String := pySplitWordsAux s.data []

/-- Helper for `pyTitle`: the Boolean argument records whether the previous
character was alphabetic (cased). -/
def pyTitleAux : Bool → List Char → List Char
  | _, [] => []
  | prevCased, c :: rest =>
    if c.isAlpha then
      (if prevCased then c.toLower else c.toUpper) :: pyTitleAux true rest
    else c :: pyTitleAux false rest

/-- Models Python `str.title()` on ASCII text: each alphabetic run starts
with an uppercase letter followed by lowercase letters. -/
def pyTitle (s : String) : String := ⟨pyTitleAux false s.data⟩

/-- Models `hashlib.sha256(content.encode()).hexdigest()` from
`insert_memory`.  Only determinism and injectivity on contents are relevant
to the storage layer (the digest feeds the uniqueness index), so the
fingerprint is embedded as the content itself. -/
def sha256Hex (content : String) : String := content

/-- One row of the `memories` table (`_init_db` in `app/memory/db.py`). -/
structure MemRow where
  id : Nat
  session_id : String
  user_id : String
  memory_date : String
  subject : String
  importance : Int
  access_mode : String
  state : String
  supersedes_memory_id : Option Nat
  confidence_score : ℚ
  source : String
  content_hash : String
  created_at : Int
deriving DecidableEq

/-- One row of the `memory_versions` table. -/
structure VersionRow where
  memory_id : Nat
  content : String
  version : Nat
deriving DecidableEq

/-- One row of the `rate_limits` table. -/
structure RateRow where
  user_id : String
  endpoint : String
  window_start : Int
  request_count : Nat
deriving DecidableEq

/-- The SQLite database file: tables in rowid (insertion) order plus the
AUTOINCREMENT counter for `memories.id`. -/
structure DB where
  memories : List MemRow
  versions : List VersionRow
  rate_limits : List RateRow
  nextId : Nat
deriving DecidableEq

/-- A freshly initialised database (`_init_db` on a new file). -/
def emptyDB : DB := { memories := [], versions := [], rate_limits := [], nextId := 1 }

/-- Result of `MemoryDB.insert_memory`: a fresh row id, the distinguished
DUPLICATE sentinel (`-1` in the source, raised by the partial uniqueness
index `idx_active_memories_hash`), or `None` for any other storage error. -/
inductive InsertOutcome where
  | inserted (id : Nat)
  | duplicate
  | failed
deriving DecidableEq

/-- `MemoryDB.insert_memory`: append-only insert of a memory row and its
version-1 content in one transaction.  `fail` selects the generic
`except Exception` branch (returns `None`, state rolled back); the
duplicate branch fires exactly when the partial uniqueness index
`UNIQUE(user_id, content_hash) WHERE state='active'` rejects the insert,
also rolling the transaction back. -/
def insertMemory (fail : Bool) (now : Int) (db : DB)
    (session_id content memory_date subject : String) (importance : Int)
    (user_id access_mode state : String) (supersedes_memory_id : Option Nat)
    (confidence_score : ℚ) (source : String) : InsertOutcome × DB :=
  if fail then (.failed, db)
  else
    let content_hash := sha256Hex content
    if state = "active" ∧ ∃ x ∈ db.memories,
        x.user_id = user_id ∧ x.content_hash = content_hash ∧ x.state = "active" then
      (.duplicate, db)
    else
      let memory_id := db.nextId
      (.inserted memory_id,
        { db with
          memories := db.memories ++
            [{ id := memory_id, session_id, user_id, memory_date, subject, importance,
               access_mode, state, supersedes_memory_id, confidence_score, source,
               content_hash, created_at := now }],
          versions := db.versions ++ [{ memory_id, content, version := 1 }],
          nextId := db.nextId + 1 })

/-- The row transformation of the UPDATE statement in `set_memory_state`:
rows matching `id = ? AND state != ?` get the new state, all others are
untouched. -/
def applyStateUpd (memory_id : Nat) (new_state : String) (x : MemRow) : MemRow :=
  if x.id = memory_id ∧ x.state ≠ new_state then { x with state := new_state } else x

/-- `MemoryDB.set_memory_state`: `UPDATE memories SET state = ? WHERE id = ?
AND state != ?`, returning `True` iff a row actually mutated.  When the
update would put a second `active` row on the same `(user_id, content_hash)`
pair the uniqueness index aborts the statement, the `except` branch returns
`False` and the transaction rolls back. -/
def setMemoryState (db : DB) (memory_id : Nat) (new_state : String) : Bool × DB :=
  match db.memories.find? (fun m => decide (m.id = memory_id ∧ m.state ≠ new_state)) with
  | none => (false, db)
  | some m =>
    if new_state = "active" ∧ ∃ x ∈ db.memories, x.id ≠ memory_id ∧
        x.user_id = m.user_id ∧ x.content_hash = m.content_hash ∧ x.state = "active" then
      (false, db)
    else
      (true, { db with memories := db.memories.map (applyStateUpd memory_id new_state) })

/-- The MAX(version) row of `memory_versions` for one memory, as computed by
the `latest` subquery join used by both read paths. -/
def latestVersion (vs : List VersionRow) (mid : Nat) : Option VersionRow :=
  (vs.filter (fun v => decide (v.memory_id = mid))).foldl
    (fun acc v =>
      match acc with
      | none => some v
      | some w => if w.version < v.version then some v else some w)
    none

/-- Row shape returned by `get_active_memories_by_subject`. -/
structure ActiveMem where
  id : Nat
  content : String
  confidence_score : ℚ
  source : String
  importance : Int
deriving DecidableEq

/-- `MemoryDB.get_active_memories_by_subject`: active rows of one
session/user/subject joined to their latest version content.  The SQL has
no ORDER BY; SQLite scans `memories` in rowid order, so the list keeps the
table order.  `fail` selects the `except` branch, which swallows the error
and returns the empty list. -/
def getActiveMemoriesBySubject (fail : Bool) (db : DB)
    (session_id user_id subject : String) : List ActiveMem :=
  if fail then []
  else
    (db.memories.filter (fun m => decide (m.session_id = session_id ∧ m.user_id = user_id ∧
        m.subject = subject ∧ m.state = "active"))).filterMap (fun m =>
      (latestVersion db.versions m.id).map (fun v =>
        { id := m.id, content := v.content, confidence_score := m.confidence_score,
          source := m.source, importance := m.importance }))

/-- Row shape returned by `retrieve_memories`. -/
structure RetRow where
  id : Nat
  session_id : String
  subject : String
  content : String
  confidence_score : ℚ
  source : String
  created_at : Int
  state : String
deriving DecidableEq

/-- The CASE expression of the deterministic ORDER BY in
`retrieve_memories`: manual 3, imported 2, inferred 1, anything else 0. -/
def sourceWeightSQL (source : String) : Nat :=
  if source = "manual" then 3
  else if source = "imported" then 2
  else if source = "inferred" then 1
  else 0

/-- Sort key of the deterministic ORDER BY, all four components descending:
source weight, confidence, created_at, id. -/
def RankKey := Lex (Nat × Lex (ℚ × Lex (Int × Nat)))

instance : LinearOrder RankKey := by unfold RankKey; infer_instance

/-- The ORDER BY key of one result row. -/
def rankKey (r : RetRow) : RankKey :=
  toLex (sourceWeightSQL r.source, toLex (r.confidence_score, toLex (r.created_at, r.id)))

/-- `rankBefore a b` holds when the deterministic ORDER BY places `a` at or
before `b` (every component is sorted DESC, so larger keys come first). -/
def rankBefore (a b : RetRow) : Prop := rankKey b ≤ rankKey a

instance : DecidableRel rankBefore := fun a b => by unfold rankBefore; infer_instance

instance : IsTotal RetRow rankBefore := ⟨fun a b => le_total (rankKey b) (rankKey a)⟩

instance : IsTrans RetRow rankBefore := ⟨fun _ _ _ h1 h2 => le_trans h2 h1⟩

/-- Occurrence of the character list `n` inside `h` (SQL `LIKE`, modulo the
surrounding percent signs). -/
def containsSub (h n : List Char) : Bool :=
  match h with
  | [] => n.isEmpty
  | _ :: t => n.isPrefixOf h || containsSub t n

/-- `mv.content LIKE ?` with parameter `%query%`: ASCII case-insensitive
substring match, as SQLite LIKE behaves on ASCII. -/
def likeMatch (content query : String) : Bool :=
  containsSub (pyLower content).data (pyLower query).data

/-- `MemoryDB.retrieve_memories`: the deterministic retrieval query.  Filter
by user, lifecycle state and scope, optionally by a content substring, then
apply the deterministic ORDER BY and the SQL LIMIT (a negative LIMIT means
no bound in SQLite).  `fail` selects the `except` branch, which swallows
the error and returns the empty list. -/
def retrieveMemories (fail : Bool) (db : DB) (user_id query : String)
    (scope : Option (List String)) (state_filter : String) (limit : Int) : List RetRow :=
  if fail then []
  else
    let scopeL := scope.getD ["*"]
    let allow_all_scope := "*" ∈ scopeL
    let rows := db.memories.filter (fun m => decide (m.user_id = user_id ∧
        m.state = state_filter ∧ (allow_all_scope ∨ m.subject ∈ scopeL)))
    let rows := rows.filterMap (fun m => (latestVersion db.versions m.id).map (fun v =>
      ({ id := m.id, session_id := m.session_id, subject := m.subject, content := v.content,
         confidence_score := m.confidence_score, source := m.source,
         created_at := m.created_at, state := m.state } : RetRow)))
    let rows := if query = "" then rows else rows.filter (fun r => likeMatch r.content query)
    let sorted := List.insertionSort rankBefore rows
    if limit < 0 then sorted else sorted.take limit.toNat

/-- `MemoryDB.check_rate_limit`: fixed-window counter.  Prunes windows that
ended before `now - window_seconds`, upserts the caller's bucket for
`window_start = now - now % window_seconds`, and admits the request iff the
post-increment count stays within `max_requests`.  `fail` selects the
`except` branch: the limiter fails open (admission granted, state rolled
back). -/
def checkRateLimit (fail : Bool) (now : Int) (db : DB) (user_id endpoint : String)
    (max_requests : Nat) (window_seconds : Int) : Bool × DB :=
  if fail then (true, db)
  else
    let window_start := now - now % window_seconds
    let pruned := db.rate_limits.filter (fun r => !decide (r.window_start < now - window_seconds))
    match pruned.find? (fun r => decide (r.user_id = user_id ∧ r.endpoint = endpoint ∧
        r.window_start = window_start)) with
    | some r =>
      (decide (r.request_count + 1 ≤ max_requests),
        { db with rate_limits := pruned.map (fun x =>
          if x.user_id = user_id ∧ x.endpoint = endpoint ∧ x.window_start = window_start then
            { x with request_count := x.request_count + 1 } else x) })
    | none =>
      (decide (1 ≤ max_requests),
        { db with rate_limits := pruned ++ [⟨user_id, endpoint, window_start, 1⟩] })

/-- The `precedence` mapping of `evaluate_and_store` with its `.get(source, 1)`
default: manual 3, imported 2, inferred 1, anything else 1. -/
def precedenceGet (source : String) : Nat :=
  if source = "manual" then 3
  else if source = "imported" then 2
  else if source = "inferred" then 1
  else 1

/-- The lowercase whitespace-split token set of a content string
(`set(content.lower().split())` in `_find_conflict`). -/
def pyWords (s : String) : Finset String := (pySplitWords (pyLower s)).toFinset

/-- The collision test of `_find_conflict` for one candidate pair: both word
sets non-empty and `len(words & existing) / min(len(words), len(existing))
>= 0.6`.  The Python float quotient is modelled exactly: `mkRat a b` is the
rational `a / b` and `0.6 = mkRat 3 5`. -/
def collides (new_content : String) (mem : ActiveMem) : Prop :=
  let words := pyWords new_content
  let existing_words := pyWords mem.content
  ¬(words = ∅ ∨ existing_words = ∅) ∧
    mkRat ((words ∩ existing_words).card : Int) (min words.card existing_words.card) ≥ mkRat 3 5

instance (c : String) (m : ActiveMem) : Decidable (collides c m) := by
  unfold collides; infer_instance

/-- `PolicyEngine._find_conflict`: the first active memory in scan order
whose content collides with the candidate content. -/
def findConflict (new_content : String) (active_memories : List ActiveMem) : Option ActiveMem :=
  active_memories.find? (fun mem => decide (collides new_content mem))

/-- The dictionary returned by `evaluate_and_store`; fields that a branch
does not set are `none` (Python would omit the key, or set it to `None` in
the supersede branch whose insert failed). -/
structure PolicyResult where
  status : String
  stored : Bool := false
  memory_id : Option Nat := none
  reason_code : Option String := none
  reason : Option String := none
  detail : Option String := none
deriving DecidableEq

/-- The OCC loop body of `PolicyEngine.evaluate_and_store`, structurally
recursive on the remaining retry budget (`max_retries = 5`; the backoff
sleep has no observable effect on the state and is omitted).  `readFail`
selects the `except` branch of every `get_active_memories_by_subject` call
and `insertFail` the `except` branch of every `insert_memory` call. -/
def evalLoop (readFail insertFail : Bool) (now : Int)
    (session_id content memory_date subject : String) (importance : Int)
    (user_id access_mode : String) (confidence_score : ℚ) (source : String) :
    Nat → DB → PolicyResult × DB
  | 0, db =>
    ({ status := "error", reason := some "Max OCC retries (5) exceeded due to high contention." }, db)
  | fuel + 1, db =>
    let active_memories := getActiveMemoriesBySubject readFail db session_id user_id subject
    match findConflict content active_memories with
    | some conflict_mem =>
      if pyStrip content = pyStrip conflict_mem.content then
        ({ status := "exists", stored := false,
           detail := some "This exact memory was already active.",
           reason_code := some "EXISTS_REASON_EXACT_MATCH" }, db)
      else if precedenceGet source < precedenceGet conflict_mem.source ∨
          (precedenceGet source = precedenceGet conflict_mem.source ∧
            confidence_score < conflict_mem.confidence_score) then
        ({ status := "rejected", stored := false,
           detail := some "A higher or equal priority memory already exists for this topic.",
           reason_code := some "REJECT_REASON_PRECEDENCE_TOO_LOW" }, db)
      else
        match setMemoryState db conflict_mem.id "superseded" with
        | (false, db1) =>
          evalLoop readFail insertFail now session_id content memory_date subject importance
            user_id access_mode confidence_score source fuel db1
        | (true, db1) =>
          match insertMemory insertFail now db1 session_id content memory_date subject
              importance user_id access_mode "active" (some conflict_mem.id)
              confidence_score source with
          | (.duplicate, db2) =>
            let db3 := (setMemoryState db2 conflict_mem.id "active").2
            evalLoop readFail insertFail now session_id content memory_date subject importance
              user_id access_mode confidence_score source fuel db3
          | (.failed, db2) =>
            ({ status := "success", stored := true, memory_id := none,
               reason_code := some "SUPERSEDE_REASON_CONTENT_OVERLAP" }, db2)
          | (.inserted new_id, db2) =>
            ({ status := "success", stored := true, memory_id := some new_id,
               reason_code := some "SUPERSEDE_REASON_CONTENT_OVERLAP" }, db2)
    | none =>
      match insertMemory insertFail now db session_id content memory_date subject importance
          user_id access_mode "active" none confidence_score source with
      | (.duplicate, db1) =>
        ({ status := "exists", stored := false,
           detail := some "Native DB constraint blocked identical active memory.",
           reason_code := some "EXISTS_REASON_NATIVE_CONSTRAINT" }, db1)
      | (.failed, db1) => ({ status := "error", reason := some "Failed to store memory" }, db1)
      | (.inserted new_id, db1) =>
        ({ status := "success", stored := true, memory_id := some new_id,
           reason_code := some "ACCEPT_REASON_NEW_FACT" }, db1)

/-- `PolicyEngine.evaluate_and_store` with its retry budget of 5. -/
def evaluateAndStore (readFail insertFail : Bool) (now : Int) (db : DB)
    (session_id content memory_date subject : String) (importance : Int)
    (user_id access_mode : String) (confidence_score : ℚ) (source : String) :
    PolicyResult × DB :=
  evalLoop readFail insertFail now session_id content memory_date subject importance
    user_id access_mode confidence_score source 5 db

/-- The dictionary returned by the retrieval paths; fields a branch does not
set are `none` or empty. -/
structure RetrieveResult where
  status : String
  detail : Option String := none
  reason : Option String := none
  results : List RetRow := []
  result_count : Nat := 0
deriving DecidableEq

/-- `PolicyEngine.retrieve_memory`: validate the user and the state filter,
clamp the limit with `min(limit, 20)`, apply the 50-per-60-seconds rate
limit, then run the deterministic query.  `rlFail` selects the `except`
branch of `check_rate_limit` and `qFail` that of `retrieve_memories`. -/
def retrieveMemoryPolicy (rlFail qFail : Bool) (now : Int) (db : DB)
    (user_id query : String) (scope : Option (List String)) (state_filter : String)
    (limit : Int) : RetrieveResult × DB :=
  if user_id = "" then
    ({ status := "error", detail := some "user_id is strictly required for retrieval." }, db)
  else if state_filter ∉ ["active", "superseded", "archived", "deleted"] then
    ({ status := "error", detail := some "Invalid state_filter." }, db)
  else
    let actual_limit := min limit 20
    match checkRateLimit rlFail now db user_id "retrieve_memory" 50 60 with
    | (false, db1) =>
      ({ status := "error",
         detail := some "Rate limit exceeded (50 requests per minute)." }, db1)
    | (true, db1) =>
      let results := retrieveMemories qFail db1 user_id query scope state_filter actual_limit
      ({ status := "success", results := results, result_count := results.length }, db1)

/-- `MemoryTool._normalize_subject`: empty subject becomes `General`,
anything else is stripped and Title Cased. -/
def normalizeSubject (subject : String) : String :=
  if subject = "" then "General" else pyTitle (pyStrip subject)

/-- `MemoryTool.retrieve_memory`: the tool facade.  `raw_allowed` is the
`allowed_subjects` settings value after `load_settings` and JSON decoding
(the facade falls back to `["*"]` for malformed values, which a caller of
this model expresses by passing `["*"]`).  Every scope entry is normalized
and checked against the normalized allow-list before the policy engine —
and with it the rate limiter and the database query — is reached. -/
def toolRetrieveMemory (rlFail qFail : Bool) (now : Int) (db : DB)
    (raw_allowed : List String) (query : String) (scope : Option (List String))
    (state_filter : String) (limit : Int) (user_id : String) : RetrieveResult × DB :=
  let allowed_subjects := raw_allowed.map normalizeSubject
  let violation :=
    match scope with
    | none => none
    | some l =>
      if l = [] then none
      else l.find? (fun s => decide ("*" ∉ allowed_subjects ∧
        normalizeSubject s ∉ allowed_subjects))
  match violation with
  | some s =>
    ({ status := "error",
       reason := some ("Scope " ++ normalizeSubject s ++
         " is not allowed by current policy settings.") }, db)
  | none =>
    let final_scope : Option (List String) :=
      match scope with
      | none => none
      | some l => if l = [] then none else some (l.map normalizeSubject)
    retrieveMemoryPolicy rlFail qFail now db user_id query final_scope state_filter limit

/-! ## Concrete states used by scenario theorems -/

/-- Insert one fruit fact for user `u1`, subject `Fruit` (§8 scenario 6). -/
def insFruit (db : DB) (content : String) (conf : ℚ) (source : String) (now : Int) : DB :=
  (insertMemory false now db "s1" content "2026-02-27" "Fruit" 3 "u1" "private" "active"
    none conf source).2

/-- The five-fact ranking scenario state: Apple(inferred, 0.6),
Banana(inferred, 0.8), Cherry(imported, 1.0), Date(manual, 1.0),
Elderberry(manual, 0.9). -/
def fiveDB : DB :=
  insFruit (insFruit (insFruit (insFruit (insFruit emptyDB
    "Apple" (mkRat 3 5) "inferred" 1)
    "Banana" (mkRat 4 5) "inferred" 2)
    "Cherry" (mkRat 1 1) "imported" 3)
    "Date" (mkRat 1 1) "manual" 4)
    "Elderberry" (mkRat 9 10) "manual" 5

/-- Twenty-one distinct active facts for user `u1`, subject `Spam`:
the i-th content is the string of i+1 letters `a`. -/
def spamDB : DB := (List.range 21).foldl (fun db i =>
  (insertMemory false (Int.ofNat i) db "s" (⟨List.replicate (i + 1) 'a'⟩ : String)
    "2026-02-27" "Spam" 3 "u1" "private" "active" none (mkRat 1 2) "inferred").2) emptyDB

/-! ## Helper lemmas -/

/-- A successful `find?` splits the list at the first hit. -/
theorem find?_first_split {α : Type} {p : α → Bool} {l : List α} {a : α}
    (h : l.find? p = some a) :
    p a = true ∧ ∃ pre suf, l = pre ++ a :: suf ∧ ∀ x ∈ pre, p x = false := by
  induction l with
  | nil => simp [List.find?] at h
  | cons b t ih =>
    by_cases hb : p b
    · rw [List.find?_cons_of_pos _ hb] at h
      obtain rfl : b = a := by injection h
      exact ⟨hb, [], t, rfl, by simp⟩
    · rw [List.find?_cons_of_neg _ hb] at h
      obtain ⟨hp, pre, suf, rfl, hpre⟩ := ih h
      refine ⟨hp, b :: pre, suf, rfl, ?_⟩
      intro x hx
      rcases List.mem_cons.mp hx with rfl | hx
      · exact Bool.eq_false_iff.mpr hb
      · exact hpre x hx

/-- `retrieveMemories` truncates its sorted output to a non-negative SQL
LIMIT. -/
theorem retrieveMemories_length_le (fail : Bool) (db : DB) (user_id query : String)
    (scope : Option (List String)) (state_filter : String) (limit : Int) (h : 0 ≤ limit) :
    (retrieveMemories fail db user_id query scope state_filter limit).length ≤ limit.toNat := by
  unfold retrieveMemories
  split
  · simp
  · dsimp only
    split
    · omega
    · exact List.length_take_le _ _

/-! ## C5: deterministic retrieval ranking -/

/-- C5.  `retrieve_memories` sorts by source weight, confidence, created_at
and id, all descending: the ranking relation is total, transitive, and two
rows ranked both ways agree on all four key components (so with distinct
row ids it is a total order and the output sequence of a query is uniquely
determined); every query result is sorted by it; and the five-fact scenario
Apple(inferred, 0.6), Banana(inferred, 0.8), Cherry(imported, 1.0),
Date(manual, 1.0), Elderberry(manual, 0.9) retrieves in the order
[Date, Elderberry, Cherry, Banana, Apple]. -/
theorem claim_C5_ranking :
    (∀ a b : RetRow, rankBefore a b ∨ rankBefore b a) ∧
    (∀ a b c : RetRow, rankBefore a b → rankBefore b c → rankBefore a c) ∧
    (∀ a b : RetRow, rankBefore a b → rankBefore b a →
      sourceWeightSQL a.source = sourceWeightSQL b.source ∧
      a.confidence_score = b.confidence_score ∧ a.created_at = b.created_at ∧ a.id = b.id) ∧
    (∀ (fail : Bool) (db : DB) (u q : String) (sc : Option (List String)) (sf : String)
      (lim : Int), (retrieveMemories fail db u q sc sf lim).Sorted rankBefore) ∧
    (retrieveMemories false fiveDB "u1" "" none "active" 20).map (fun r => r.content)
      = ["Date", "Elderberry", "Cherry", "Banana", "Apple"] := by
  refine ⟨fun a b => le_total (rankKey b) (rankKey a),
    fun a b c h1 h2 => le_trans h2 h1, fun a b h1 h2 => ?_, ?_, by decide⟩
  · have hk : rankKey a = rankKey b := le_antisymm h2 h1
    unfold rankKey at hk
    have h3 := toLex_inj.mp hk
    have hw : sourceWeightSQL a.source = sourceWeightSQL b.source := congrArg Prod.fst h3
    have h4 := toLex_inj.mp (congrArg Prod.snd h3)
    have hc : a.confidence_score = b.confidence_score := congrArg Prod.fst h4
    have h5 := toLex_inj.mp (congrArg Prod.snd h4)
    exact ⟨hw, hc, congrArg Prod.fst h5, congrArg Prod.snd h5⟩
  · intro fail db u q sc sf lim
    unfold retrieveMemories
    split
    · simp [List.Sorted]
    · dsimp only
      split
      · exact List.sorted_insertionSort rankBefore _
      · exact (List.sorted_insertionSort rankBefore _).sublist (List.take_sublist _ _)

/-- C5 witness: the ranking facts applied at concrete rows, discharging the
hypotheses of transitivity and antisymmetry by evaluation. -/
theorem claim_C5_witness :
    (rankBefore ⟨1, "s", "S", "c1", mkRat 1 1, "manual", 0, "active"⟩
       ⟨2, "s", "S", "c2", mkRat 1 2, "manual", 0, "active"⟩ →
     rankBefore ⟨2, "s", "S", "c2", mkRat 1 2, "manual", 0, "active"⟩
       ⟨3, "s", "S", "c3", mkRat 1 3, "inferred", 0, "active"⟩ →
     rankBefore ⟨1, "s", "S", "c1", mkRat 1 1, "manual", 0, "active"⟩
       ⟨3, "s", "S", "c3", mkRat 1 3, "inferred", 0, "active"⟩) ∧
    (rankBefore ⟨4, "s", "S", "c4", mkRat 1 1, "manual", 0, "active"⟩
       ⟨4, "s", "S", "c5", mkRat 1 1, "manual", 0, "active"⟩ →
     rankBefore ⟨4, "s", "S", "c5", mkRat 1 1, "manual", 0, "active"⟩
       ⟨4, "s", "S", "c4", mkRat 1 1, "manual", 0, "active"⟩ →
     sourceWeightSQL "manual" = sourceWeightSQL "manual") := by
  constructor
  · intro h1 h2
    exact claim_C5_ranking.2.1 _ _ _ h1 h2
  · intro h1 h2
    exact (claim_C5_ranking.2.2.1 _ _ h1 h2).1

/-! ## C6: the retrieval limit cap -/

/-- C6 as stated is false: the clamp is `min(limit, 20)`, and SQLite treats
a negative LIMIT as unbounded, so `limit = -1` (where `min(-1, 20) = -1`)
disables the cap.  Against a state with 21 matching rows the call returns
all 21 of them. -/
theorem claim_C6_counterexample :
    (retrieveMemoryPolicy false false 100 spamDB "u1" "" none "active" (-1)).1.status
        = "success" ∧
      (retrieveMemoryPolicy false false 100 spamDB "u1" "" none "active"
        (-1)).1.results.length = 21 ∧ ¬(21 ≤ 20) := by
  exact ⟨by decide, by decide, by decide⟩

/-- C6 amended: for every non-negative integer limit, `retrieve_memory`
returns at most 20 rows — the limit is clamped with `min(limit, 20)` before
the query — and in particular `limit = 100` returns at most 20 rows.  (A
negative limit escapes the cap, per the counterexample.) -/
theorem claim_C6_amended (rlFail qFail : Bool) (now : Int) (db : DB)
    (user_id query : String) (scope : Option (List String)) (state_filter : String)
    (limit : Int) (h : 0 ≤ limit) :
    (retrieveMemoryPolicy rlFail qFail now db user_id query scope state_filter
      limit).1.results.length ≤ 20 := by
  unfold retrieveMemoryPolicy
  split
  · simp
  · split
    · simp
    · split
      · simp
      · simp only []
        calc (retrieveMemories qFail _ user_id query scope state_filter
                (min limit 20)).length
            ≤ (min limit 20).toNat :=
              retrieveMemories_length_le _ _ _ _ _ _ _ (le_min h (by omega))
          _ ≤ 20 := by omega

/-- C6 witness: the amended cap at `limit = 100` against the 21-row state:
at most 20 rows come back. -/
theorem claim_C6_witness :
    (retrieveMemoryPolicy false false 100 spamDB "u1" "" none "active"
      100).1.results.length ≤ 20 :=
  claim_C6_amended false false 100 spamDB "u1" "" none "active" 100 (by decide)

/-- Pairwise relations survive `filterMap` when the function transports the
relation. -/
theorem pairwise_filterMap_of_pairwise {α β : Type} {R : α → α → Prop} {S : β → β → Prop}
    (f : α → Option β)
    (h : ∀ a b x y, R a b → f a = some x → f b = some y → S x y) :
    ∀ {l : List α}, l.Pairwise R → (l.filterMap f).Pairwise S := by
  intro l hl
  induction hl with
  | nil => simp
  | @cons a t ha _ ih =>
    rw [List.filterMap_cons]
    cases hfa : f a with
    | none => exact ih
    | some x =>
      refine List.Pairwise.cons ?_ ih
      intro y hy
      obtain ⟨b, hb, hfb⟩ := List.mem_filterMap.mp hy
      exact h a b x y (ha b hb) hfa hfb

/-! ## C4: lexical conflict detection -/

/-- C4.  `_find_conflict` reports a conflict exactly when some active memory
collides with the candidate, where collision means both lowercase
whitespace-split token sets are non-empty and
`|words(A) ∩ words(B)| / min(|words(A)|, |words(B)|) ≥ 0.6` (computed
exactly: `mkRat a b` is `a / b` and `0.6 = 3/5`); empty token sets never
collide; the reported target is the first colliding memory in scan order;
and `get_active_memories_by_subject` keeps ascending memory id order
(the table scan preserves the rowid order of the `memories` list). -/
theorem claim_C4_find_conflict :
    (∀ (c : String) (mems : List ActiveMem),
      findConflict c mems = none ↔ ∀ m ∈ mems, ¬ collides c m) ∧
    (∀ (c : String) (mems : List ActiveMem) (m : ActiveMem),
      findConflict c mems = some m → collides c m ∧
        ∃ pre suf, mems = pre ++ m :: suf ∧ ∀ x ∈ pre, ¬ collides c x) ∧
    (∀ (c : String) (m : ActiveMem), collides c m ↔
      (pyWords c ≠ ∅ ∧ pyWords m.content ≠ ∅ ∧
        mkRat ((pyWords c ∩ pyWords m.content).card : Int)
          (min (pyWords c).card (pyWords m.content).card) ≥ mkRat 3 5)) ∧
    (∀ (fail : Bool) (db : DB) (s u subj : String),
      db.memories.Pairwise (fun a b => a.id < b.id) →
      (getActiveMemoriesBySubject fail db s u subj).Pairwise (fun a b => a.id < b.id)) := by
  refine ⟨?_, ?_, ?_, ?_⟩
  · intro c mems
    simp [findConflict, List.find?_eq_none]
  · intro c mems m h
    obtain ⟨hp, pre, suf, rfl, hpre⟩ := find?_first_split h
    refine ⟨of_decide_eq_true hp, pre, suf, rfl, ?_⟩
    intro x hx
    exact of_decide_eq_false (hpre x hx)
  · intro c m
    simp only [collides, not_or, ge_iff_le, and_assoc]
  · intro fail db s u subj hdb
    unfold getActiveMemoriesBySubject
    split
    · simp
    · refine pairwise_filterMap_of_pairwise _ ?_
        (hdb.sublist (List.filter_sublist _))
      intro a b x y hab hfa hfb
      obtain ⟨va, _, hxa⟩ := Option.map_eq_some'.mp hfa
      obtain ⟨vb, _, hxb⟩ := Option.map_eq_some'.mp hfb
      rw [← hxa, ← hxb]
      exact hab

/-- An active memory whose content does not collide with `"a b c"`. -/
def memNoColl : ActiveMem := ⟨1, "x y z", mkRat 1 2, "inferred", 3⟩

/-- An active memory whose content collides with `"a b c"` (overlap 2/3). -/
def memColl : ActiveMem := ⟨2, "a b d", mkRat 1 2, "inferred", 3⟩

/-- C4 witness: the first-collision split applied at a concrete scan list,
and the ordering contract applied at the five-fact state. -/
theorem claim_C4_witness :
    (collides "a b c" memColl ∧
      ∃ pre suf, [memNoColl, memColl] = pre ++ memColl :: suf ∧
        ∀ x ∈ pre, ¬ collides "a b c" x) ∧
    (getActiveMemoriesBySubject false fiveDB "s1" "u1" "Fruit").Pairwise
      (fun a b => a.id < b.id) :=
  ⟨claim_C4_find_conflict.2.1 "a b c" [memNoColl, memColl] memColl (by decide),
   claim_C4_find_conflict.2.2.2 false fiveDB "s1" "u1" "Fruit" (by decide)⟩

/-! ## C7: the fixed-window rate limiter -/

/-- The database state after `n` consecutive `retrieve_memory` calls for one
user at wall time `t` (defaults: no query, no scope, active filter,
limit 5). -/
def afterCalls (t : Int) (user : String) (db : DB) : Nat → DB
  | 0 => db
  | n + 1 => (retrieveMemoryPolicy false false t (afterCalls t user db n) user "" none
      "active" 5).2

/-- The result of the `(n+1)`-st consecutive `retrieve_memory` call (`n`
0-based) for one user at wall time `t`. -/
def nthCallRes (t : Int) (user : String) (db : DB) (n : Nat) : RetrieveResult :=
  (retrieveMemoryPolicy false false t (afterCalls t user db n) user "" none "active" 5).1

/-- The current window's bucket is never pruned: its start lies strictly
inside the last `window_seconds`. -/
theorem window_start_not_old (now : Int) : ¬(now - now % 60 < now - 60) := by
  have h1 : 0 ≤ now % 60 := Int.emod_nonneg now (by norm_num)
  have h2 : now % 60 < 60 := Int.emod_lt_of_pos now (by norm_num)
  omega

/-- `check_rate_limit` on a state with an empty `rate_limits` table inserts
a fresh bucket with count 1. -/
theorem checkRateLimit_empty (now : Int) (db : DB) (u e : String) (mx : Nat)
    (h : db.rate_limits = []) :
    checkRateLimit false now db u e mx 60
      = (decide (1 ≤ mx), { db with rate_limits := [⟨u, e, now - now % 60, 1⟩] }) := by
  unfold checkRateLimit
  rw [if_neg (by simp)]
  rw [h]
  rfl

/-- `check_rate_limit` on a state whose only bucket is the caller's current
window increments that bucket. -/
theorem checkRateLimit_single (now : Int) (db : DB) (u e : String) (mx k : Nat)
    (h : db.rate_limits = [⟨u, e, now - now % 60, k⟩]) :
    checkRateLimit false now db u e mx 60
      = (decide (k + 1 ≤ mx),
         { db with rate_limits := [⟨u, e, now - now % 60, k + 1⟩] }) := by
  unfold checkRateLimit
  rw [if_neg (by simp)]
  rw [h]
  rw [List.filter_cons_of_pos (by simpa using window_start_not_old now), List.filter_nil]
  dsimp only
  rw [List.find?_cons_of_pos _ (by simp)]
  simp

/-- After `n + 1` calls the caller's bucket for the fixed window
`window_start = t - t % 60` holds exactly `n + 1`. -/
theorem afterCalls_rate (t : Int) (user : String) (db : DB) (hu : user ≠ "")
    (h0 : db.rate_limits = []) : ∀ n : Nat,
    (afterCalls t user db (n + 1)).rate_limits
      = [⟨user, "retrieve_memory", t - t % 60, n + 1⟩] := by
  intro n
  induction n with
  | zero =>
    show (retrieveMemoryPolicy false false t db user "" none "active" 5).2.rate_limits = _
    unfold retrieveMemoryPolicy
    rw [if_neg hu, if_neg (by decide)]
    rw [checkRateLimit_empty t db user "retrieve_memory" 50 h0]
    cases hb : decide (1 ≤ 50) <;> simp_all
  | succ m ih =>
    show (retrieveMemoryPolicy false false t (afterCalls t user db (m + 1)) user "" none
      "active" 5).2.rate_limits = _
    unfold retrieveMemoryPolicy
    rw [if_neg hu, if_neg (by decide)]
    rw [checkRateLimit_single t _ user "retrieve_memory" 50 (m + 1) ih]
    cases hb : decide (m + 1 + 1 ≤ 50) <;> simp_all

/-- The `(n+1)`-st call in the window is admitted iff its post-increment
count `n + 1` stays within 50; otherwise it gets the structured rate-limit
error carrying no data. -/
theorem nthCall_spec (t : Int) (user : String) (db : DB) (hu : user ≠ "")
    (h0 : db.rate_limits = []) (n : Nat) :
    ((nthCallRes t user db n).status = "success" ↔ n + 1 ≤ 50) ∧
    (¬(n + 1 ≤ 50) → nthCallRes t user db n
      = { status := "error",
          detail := some "Rate limit exceeded (50 requests per minute)." }) := by
  unfold nthCallRes
  unfold retrieveMemoryPolicy
  rw [if_neg hu, if_neg (by decide)]
  cases n with
  | zero =>
    rw [show afterCalls t user db 0 = db from rfl,
      checkRateLimit_empty t db user "retrieve_memory" 50 h0]
    exact ⟨by simp, fun hc => absurd (by omega) hc⟩
  | succ m =>
    rw [checkRateLimit_single t _ user "retrieve_memory" 50 (m + 1)
      (afterCalls_rate t user db hu h0 m)]
    cases hb : decide (m + 1 + 1 ≤ 50) with
    | false =>
      refine ⟨by simpa using of_decide_eq_false hb, fun _ => rfl⟩
    | true =>
      exact ⟨by simpa using of_decide_eq_true hb, fun hc => absurd (of_decide_eq_true hb) hc⟩

/-- C7.  Within one fixed 60-second window (`window_start = t - t mod 60`),
a request is admitted iff its post-increment window count is at most 50:
the first 50 `retrieve_memory` calls of a user succeed, the bucket count
after `n + 1` calls is exactly `n + 1`, the 51st call returns the
structured rate-limit error with no data, and a failing rate-limit check
itself admits the request (the limiter fails open). -/
theorem claim_C7_rate_limit (t : Int) (user : String) (db : DB)
    (hu : user ≠ "") (h0 : db.rate_limits = []) :
    (∀ n : Nat, ((nthCallRes t user db n).status = "success" ↔ n + 1 ≤ 50)) ∧
    (∀ n : Nat, (afterCalls t user db (n + 1)).rate_limits
      = [⟨user, "retrieve_memory", t - t % 60, n + 1⟩]) ∧
    (nthCallRes t user db 50
      = { status := "error",
          detail := some "Rate limit exceeded (50 requests per minute)." }) ∧
    (∀ (now : Int) (db2 : DB) (u2 e2 : String) (mx : Nat) (w : Int),
      checkRateLimit true now db2 u2 e2 mx w = (true, db2)) :=
  ⟨fun n => (nthCall_spec t user db hu h0 n).1,
    afterCalls_rate t user db hu h0,
    (nthCall_spec t user db hu h0 50).2 (by omega),
    fun _ _ _ _ _ _ => rfl⟩

/-- C7 witness: at `t = 0`, user `u1`, fresh database, the first call
succeeds and the 51st is the structured rate-limit error. -/
theorem claim_C7_witness :
    ((nthCallRes 0 "u1" emptyDB 0).status = "success" ↔ 0 + 1 ≤ 50) ∧
    nthCallRes 0 "u1" emptyDB 50
      = { status := "error",
          detail := some "Rate limit exceeded (50 requests per minute)." } := by
  have H := claim_C7_rate_limit 0 "u1" emptyDB (by decide) rfl
  exact ⟨H.1 0, H.2.2.1⟩

/-! ## C10: the facade scope gate -/

/-- C10.  When any scope entry, trimmed and Title Cased, is missing from the
normalized `allowed_subjects` list and that list has no `*`, the tool facade
answers `status = error` at once and the database state — including the
rate-limit table the policy engine would otherwise touch and the tables the
query would read — is completely untouched. -/
theorem claim_C10_scope_gate (rlFail qFail : Bool) (now : Int) (db : DB)
    (raw_allowed : List String) (query : String) (l : List String)
    (state_filter : String) (limit : Int) (user_id : String) (s : String)
    (hs : s ∈ l)
    (hnot : normalizeSubject s ∉ raw_allowed.map normalizeSubject)
    (hstar : "*" ∉ raw_allowed.map normalizeSubject) :
    (toolRetrieveMemory rlFail qFail now db raw_allowed query (some l) state_filter limit
      user_id).1.status = "error" ∧
    (toolRetrieveMemory rlFail qFail now db raw_allowed query (some l) state_filter limit
      user_id).2 = db := by
  have hne : ¬(l = []) := by rintro rfl; exact absurd hs (List.not_mem_nil s)
  unfold toolRetrieveMemory
  dsimp only
  rw [if_neg hne]
  cases hfind : l.find? (fun x => decide ("*" ∉ raw_allowed.map normalizeSubject ∧
      normalizeSubject x ∉ raw_allowed.map normalizeSubject)) with
  | none =>
    have hcontra := List.find?_eq_none.mp hfind s hs
    rw [decide_eq_true_eq] at hcontra
    exact absurd ⟨hstar, hnot⟩ hcontra
  | some v => exact ⟨rfl, rfl⟩

/-- C10 witness: scope entry `hobbies` against allow-list `["Work"]`. -/
theorem claim_C10_witness :
    (toolRetrieveMemory false false 0 emptyDB ["Work"] "" (some ["hobbies"]) "active" 5
      "u1").1.status = "error" ∧
    (toolRetrieveMemory false false 0 emptyDB ["Work"] "" (some ["hobbies"]) "active" 5
      "u1").2 = emptyDB :=
  claim_C10_scope_gate false false 0 emptyDB ["Work"] "" ["hobbies"] "active" 5 "u1"
    "hobbies" (by decide) (by decide) (by decide)

/-! ## C9: swallowed read failures during evaluation -/

/-- A state holding one manual, confidence-1.0 active memory
`k l m n o` for (u1, Topic). -/
def manualDB : DB :=
  (insertMemory false 1 emptyDB "s" "k l m n o" "2026-02-27" "Topic" 3 "u1" "private"
    "active" none (mkRat 1 1) "manual").2

/-- C9.  When the active-memory read fails internally,
`get_active_memories_by_subject` returns the empty list instead of an
error, so `evaluate_and_store` sees no conflict and ACCEPTs a new active
row even though a colliding, higher-precedence (manual, confidence 1.0)
active memory exists for the same user and subject: the same call without
the read failure is rejected for precedence, the failing call reports
plain success with reason `ACCEPT_REASON_NEW_FACT` (the failure is never
surfaced), and afterwards two conflicting rows are simultaneously active. -/
theorem claim_C9_swallowed_read_failure :
    getActiveMemoriesBySubject true manualDB "s" "u1" "Topic" = [] ∧
    (∃ mem ∈ getActiveMemoriesBySubject false manualDB "s" "u1" "Topic",
      collides "k l m x y" mem ∧ precedenceGet "inferred" < precedenceGet mem.source) ∧
    (evaluateAndStore false false 2 manualDB "s" "k l m x y" "2026-02-27" "Topic" 3 "u1"
      "private" (mkRat 3 5) "inferred").1.status = "rejected" ∧
    (evaluateAndStore true false 2 manualDB "s" "k l m x y" "2026-02-27" "Topic" 3 "u1"
      "private" (mkRat 3 5) "inferred").1
      = { status := "success", stored := true, memory_id := some 2,
          reason_code := some "ACCEPT_REASON_NEW_FACT" } ∧
    ((evaluateAndStore true false 2 manualDB "s" "k l m x y" "2026-02-27" "Topic" 3 "u1"
      "private" (mkRat 3 5) "inferred").2.memories.filter
        (fun m => decide (m.state = "active"))).length = 2 := by
  exact ⟨rfl, by decide, by decide, by decide, by decide⟩

/-! ## C8: surfacing of storage failures -/

/-- C8 as stated is false for the retrieval path: `retrieve_memories`
swallows its own exception and returns the empty list, so a
`retrieve_memory` call whose underlying query fails still reports
`status = success` (with zero results, although the same state holds a
matching row). -/
theorem claim_C8_counterexample :
    (retrieveMemoryPolicy false true 10 manualDB "u1" "" none "active" 5).1.status
      = "success" ∧
    retrieveMemories true manualDB "u1" "" none "active" 5 = [] ∧
    retrieveMemories false manualDB "u1" "" none "active" 5 ≠ [] := by
  exact ⟨by decide, rfl, by decide⟩

/-- C8 amended: an unexpected storage failure during the no-conflict insert
of a store does surface as `status = error`; but a failing retrieval query
is swallowed — the call reports `status = success` with zero results — and
an insert failure on the supersede path reports `status = success` with a
null memory id. -/
theorem claim_C8_amended :
    (∀ (now : Int) (db : DB) (sess content date subj : String) (imp : Int)
      (u am : String) (conf : ℚ) (src : String),
      findConflict content (getActiveMemoriesBySubject false db sess u subj) = none →
      (evaluateAndStore false true now db sess content date subj imp u am conf src).1
        = { status := "error", reason := some "Failed to store memory" }) ∧
    (∀ (now : Int) (db : DB) (u q : String) (sc : Option (List String)) (lim : Int),
      u ≠ "" → (checkRateLimit false now db u "retrieve_memory" 50 60).1 = true →
      (retrieveMemoryPolicy false true now db u q sc "active" lim).1
        = { status := "success", results := [], result_count := 0 }) ∧
    (evaluateAndStore false true 2 manualDB "s" "k l m x y" "2026-02-27" "Topic" 3 "u1"
      "private" (mkRat 1 1) "manual").1
      = { status := "success", stored := true, memory_id := none,
          reason_code := some "SUPERSEDE_REASON_CONTENT_OVERLAP" } := by
  refine ⟨?_, ?_, by decide⟩
  · intro now db sess content date subj imp u am conf src h
    show (evalLoop false true now sess content date subj imp u am conf src 5 db).1 = _
    rw [evalLoop]
    dsimp only
    rw [h]
    rfl
  · intro now db u q sc lim hu hcr
    unfold retrieveMemoryPolicy
    rw [if_neg hu, if_neg (by decide)]
    rcases hc : checkRateLimit false now db u "retrieve_memory" 50 60 with ⟨b, db1⟩
    rw [hc] at hcr
    cases b
    · exact absurd hcr (by simp)
    · rfl

/-- C8 witness: the store-side failure surfacing applied at the empty state
(no conflict), and the swallowed retrieval applied at `manualDB`. -/
theorem claim_C8_witness :
    (evaluateAndStore false true 7 emptyDB "s" "hello there" "2026-02-27" "Topic" 3 "u1"
      "private" (mkRat 3 5) "inferred").1
      = { status := "error", reason := some "Failed to store memory" } ∧
    (retrieveMemoryPolicy false true 10 manualDB "u1" "" none "active" 5).1
      = { status := "success", results := [], result_count := 0 } :=
  ⟨claim_C8_amended.1 7 emptyDB "s" "hello there" "2026-02-27" "Topic" 3 "u1" "private"
      (mkRat 3 5) "inferred" (by decide),
    claim_C8_amended.2.1 10 manualDB "u1" "" none 5 (by decide) (by decide)⟩

/-! ## C3: lifecycle transitions performed by set_memory_state -/

/-- A memory row already in the terminal state `deleted`. -/
def delRow : MemRow :=
  { id := 1, session_id := "s", user_id := "u1", memory_date := "2026-02-27", subject := "S",
    importance := 3, access_mode := "private", state := "deleted",
    supersedes_memory_id := none, confidence_score := mkRat 1 1, source := "manual",
    content_hash := "x", created_at := 0 }

/-- A state holding only the deleted row. -/
def delDB : DB := { emptyDB with memories := [delRow], nextId := 2 }

/-- C3 as stated is false: `set_memory_state` enforces no lifecycle graph —
its WHERE clause only requires the current state to differ from the new
one.  Applied to a row in the terminal state `deleted` with target
`active` (a transition outside the graph), it reports a mutation and the
row really leaves `deleted`. -/
theorem claim_C3_counterexample :
    delRow.state = "deleted" ∧
    (setMemoryState delDB 1 "active").1 = true ∧
    (setMemoryState delDB 1 "active").2.memories.map (fun m => m.state) = ["active"] := by
  exact ⟨rfl, by decide, by decide⟩

/-- Rows with equal ids in a list sorted strictly by id are equal. -/
theorem mem_id_unique {l : List MemRow} (h : l.Pairwise (fun a b => a.id < b.id))
    {a b : MemRow} (ha : a ∈ l) (hb : b ∈ l) (hid : a.id = b.id) : a = b := by
  induction l with
  | nil => cases ha
  | cons c t ih =>
    rcases List.mem_cons.mp ha with rfl | ha2
    · rcases List.mem_cons.mp hb with rfl | hb2
      · rfl
      · have := (List.pairwise_cons.mp h).1 b hb2
        omega
    · rcases List.mem_cons.mp hb with rfl | hb2
      · have := (List.pairwise_cons.mp h).1 a ha2
        omega
      · exact ih (List.pairwise_cons.mp h).2 ha2 hb2

/-- C3 amended: `set_memory_state` performs every transition whose target
state differs from the row's current state, with no regard for the
lifecycle graph (in particular `superseded → active` — used by the engine's
rollback — and `deleted → active` go through): whenever the addressed row
exists, differs from the target state, and the transition is not blocked by
the active-uniqueness index, the call mutates exactly that row to the
target state and keeps every other row; and whenever it returns false the
store is unchanged. -/
theorem claim_C3_amended (db : DB) (mid : Nat) (ns : String)
    (hwf : db.memories.Pairwise (fun a b => a.id < b.id))
    (m : MemRow) (hm : m ∈ db.memories) (hid : m.id = mid) (hdiff : m.state ≠ ns)
    (hnb : ¬(ns = "active" ∧ ∃ x ∈ db.memories, x.id ≠ mid ∧ x.user_id = m.user_id ∧
      x.content_hash = m.content_hash ∧ x.state = "active")) :
    ((setMemoryState db mid ns).1 = true ∧
      ({ m with state := ns }) ∈ (setMemoryState db mid ns).2.memories ∧
      ∀ x ∈ db.memories, x.id ≠ mid → x ∈ (setMemoryState db mid ns).2.memories) ∧
    (∀ (db2 : DB) (mid2 : Nat) (ns2 : String),
      (setMemoryState db2 mid2 ns2).1 = false → (setMemoryState db2 mid2 ns2).2 = db2) := by
  constructor
  · cases hf : db.memories.find? (fun x => decide (x.id = mid ∧ x.state ≠ ns)) with
    | none =>
      have hcontra := List.find?_eq_none.mp hf m hm
      rw [decide_eq_true_eq] at hcontra
      exact absurd ⟨hid, hdiff⟩ hcontra
    | some m2 =>
      have hp := List.find?_some hf
      rw [decide_eq_true_eq] at hp
      have hmem2 := List.mem_of_find?_eq_some hf
      have hm2 : m2 = m := mem_id_unique hwf hmem2 hm (hp.1.trans hid.symm)
      subst hm2
      unfold setMemoryState
      rw [hf]
      dsimp only
      rw [if_neg hnb]
      refine ⟨rfl, ?_, ?_⟩
      · exact List.mem_map.mpr ⟨m2, hm, by unfold applyStateUpd; rw [if_pos ⟨hid, hdiff⟩]⟩
      · intro x hx hxid
        exact List.mem_map.mpr ⟨x, hx,
          by unfold applyStateUpd; rw [if_neg (fun hc => hxid hc.1)]⟩
  · intro db2 mid2 ns2
    unfold setMemoryState
    cases hf : db2.memories.find? (fun x => decide (x.id = mid2 ∧ x.state ≠ ns2)) with
    | none => exact fun _ => rfl
    | some m2 =>
      dsimp only
      split
      · exact fun _ => rfl
      · intro hc
        simp at hc

/-- C3 witness: the amended characterisation applied to the deleted row:
`deleted → active` is performed. -/
theorem claim_C3_witness :
    ((setMemoryState delDB 1 "active").1 = true ∧
      ({ delRow with state := "active" }) ∈ (setMemoryState delDB 1 "active").2.memories ∧
      ∀ x ∈ delDB.memories, x.id ≠ 1 → x ∈ (setMemoryState delDB 1 "active").2.memories) ∧
    (∀ (db2 : DB) (mid2 : Nat) (ns2 : String),
      (setMemoryState db2 mid2 ns2).1 = false → (setMemoryState db2 mid2 ns2).2 = db2) :=
  claim_C3_amended delDB 1 "active" (by decide) delRow (by decide) (by decide) (by decide)
    (by decide)

/-! ## C1: the active-uniqueness invariant -/

/-- I1: at most one `memories` row per `(user_id, content_hash)` pair is in
state `active` (rows are identified by their id). -/
def activeUnique (db : DB) : Prop :=
  ∀ m1 ∈ db.memories, ∀ m2 ∈ db.memories,
    m1.state = "active" → m2.state = "active" → m1.user_id = m2.user_id →
    m1.content_hash = m2.content_hash → m1.id = m2.id

/-- Structural well-formedness of the store: row ids strictly increase in
table order, stay below the AUTOINCREMENT counter, and the
active-uniqueness invariant holds. -/
def dbWF (db : DB) : Prop :=
  db.memories.Pairwise (fun a b => a.id < b.id) ∧
  (∀ m ∈ db.memories, m.id < db.nextId) ∧ activeUnique db

theorem applyStateUpd_id (mid : Nat) (ns : String) (x : MemRow) :
    (applyStateUpd mid ns x).id = x.id := by
  unfold applyStateUpd; split <;> rfl

theorem applyStateUpd_user (mid : Nat) (ns : String) (x : MemRow) :
    (applyStateUpd mid ns x).user_id = x.user_id := by
  unfold applyStateUpd; split <;> rfl

theorem applyStateUpd_hash (mid : Nat) (ns : String) (x : MemRow) :
    (applyStateUpd mid ns x).content_hash = x.content_hash := by
  unfold applyStateUpd; split <;> rfl

theorem applyStateUpd_pos (mid : Nat) (ns : String) (x : MemRow)
    (h : x.id = mid ∧ x.state ≠ ns) : applyStateUpd mid ns x = { x with state := ns } := by
  unfold applyStateUpd; rw [if_pos h]

theorem applyStateUpd_neg (mid : Nat) (ns : String) (x : MemRow)
    (h : ¬(x.id = mid ∧ x.state ≠ ns)) : applyStateUpd mid ns x = x := by
  unfold applyStateUpd; rw [if_neg h]

/-- `insert_memory` preserves store well-formedness: the duplicate guard is
exactly what keeps a second active `(user_id, content_hash)` row out. -/
theorem insertMemory_wf (fail : Bool) (now : Int) (db : DB)
    (sess content date subj : String) (imp : Int) (u am st : String)
    (sup : Option Nat) (conf : ℚ) (src : String) (h : dbWF db) :
    dbWF (insertMemory fail now db sess content date subj imp u am st sup conf src).2 := by
  obtain ⟨hpw, hbound, huniq⟩ := h
  unfold insertMemory
  split
  · exact ⟨hpw, hbound, huniq⟩
  · dsimp only
    split
    · exact ⟨hpw, hbound, huniq⟩
    · rename_i hfail hdup
      refine ⟨?_, ?_, ?_⟩
      · rw [List.pairwise_append]
        refine ⟨hpw, by simp, ?_⟩
        intro a ha b hb
        rw [List.mem_singleton] at hb
        subst hb
        exact hbound a ha
      · intro m hm
        rcases List.mem_append.mp hm with hm1 | hm2
        · have := hbound m hm1
          dsimp only
          omega
        · rw [List.mem_singleton] at hm2
          subst hm2
          dsimp only
          omega
      · intro m1 hm1 m2 hm2 hs1 hs2 huser hhash
        rcases List.mem_append.mp hm1 with hA | hA <;>
          rcases List.mem_append.mp hm2 with hB | hB
        · exact huniq m1 hA m2 hB hs1 hs2 huser hhash
        · rw [List.mem_singleton] at hB
          subst hB
          exact absurd ⟨hs2, m1, hA, huser, hhash, hs1⟩ hdup
        · rw [List.mem_singleton] at hA
          subst hA
          exact absurd ⟨hs1, m2, hB, huser.symm, hhash.symm, hs2⟩ hdup
        · rw [List.mem_singleton] at hA
          rw [List.mem_singleton] at hB
          subst hA
          subst hB
          rfl

/-- `set_memory_state` preserves store well-formedness: the only path that
creates an `active` row is guarded by the uniqueness check of the partial
index. -/
theorem setMemoryState_wf (db : DB) (mid : Nat) (ns : String) (h : dbWF db) :
    dbWF (setMemoryState db mid ns).2 := by
  obtain ⟨hpw, hbound, huniq⟩ := h
  unfold setMemoryState
  cases hf : db.memories.find? (fun x => decide (x.id = mid ∧ x.state ≠ ns)) with
  | none => exact ⟨hpw, hbound, huniq⟩
  | some m =>
    dsimp only
    split
    · exact ⟨hpw, hbound, huniq⟩
    · rename_i hguard
      have hpm := List.find?_some hf
      rw [decide_eq_true_eq] at hpm
      have hmm := List.mem_of_find?_eq_some hf
      refine ⟨?_, ?_, ?_⟩
      · rw [List.pairwise_map]
        exact hpw.imp (fun hab => by
          rw [applyStateUpd_id, applyStateUpd_id]; exact hab)
      · intro x hx
        obtain ⟨y, hy, rfl⟩ := List.mem_map.mp hx
        rw [applyStateUpd_id]
        exact hbound y hy
      · intro a1 ha1 a2 ha2 hs1 hs2 huser hhash
        obtain ⟨x1, hx1, rfl⟩ := List.mem_map.mp ha1
        obtain ⟨x2, hx2, rfl⟩ := List.mem_map.mp ha2
        rw [applyStateUpd_id, applyStateUpd_id]
        rw [applyStateUpd_user, applyStateUpd_user] at huser
        rw [applyStateUpd_hash, applyStateUpd_hash] at hhash
        by_cases c1 : x1.id = mid ∧ x1.state ≠ ns <;>
          by_cases c2 : x2.id = mid ∧ x2.state ≠ ns
        · rw [c1.1, c2.1]
        · rw [applyStateUpd_pos _ _ _ c1] at hs1
          rw [applyStateUpd_neg _ _ _ c2] at hs2
          have hns : ns = "active" := hs1
          have hx1m : x1 = m := mem_id_unique hpw hx1 hmm (c1.1.trans hpm.1.symm)
          by_cases hxid : x2.id = mid
          · rw [c1.1, hxid]
          · exact absurd ⟨hns, x2, hx2, hxid, by rw [← huser, hx1m],
              by rw [← hhash, hx1m], hs2⟩ hguard
        · rw [applyStateUpd_neg _ _ _ c1] at hs1
          rw [applyStateUpd_pos _ _ _ c2] at hs2
          have hns : ns = "active" := hs2
          have hx2m : x2 = m := mem_id_unique hpw hx2 hmm (c2.1.trans hpm.1.symm)
          by_cases hxid : x1.id = mid
          · rw [c2.1, hxid]
          · exact absurd ⟨hns, x1, hx1, hxid, by rw [huser, hx2m],
              by rw [hhash, hx2m], hs1⟩ hguard
        · rw [applyStateUpd_neg _ _ _ c1] at hs1
          rw [applyStateUpd_neg _ _ _ c2] at hs2
          exact huniq x1 hx1 x2 hx2 hs1 hs2 huser hhash

/-- One storage-layer write: an `insert_memory` call or a
`set_memory_state` call. -/
inductive MemOp where
  | ins (now : Int) (session_id content memory_date subject : String) (importance : Int)
      (user_id access_mode state : String) (supersedes_memory_id : Option Nat)
      (confidence_score : ℚ) (source : String)
  | setState (memory_id : Nat) (new_state : String)

/-- Apply one write to the store, discarding the operation's return value. -/
def applyMemOp (db : DB) : MemOp → DB
  | .ins now sess content date subj imp u am st sup conf src =>
    (insertMemory false now db sess content date subj imp u am st sup conf src).2
  | .setState mid ns => (setMemoryState db mid ns).2

/-- The store reached from a fresh database by a sequence of writes. -/
def runMemOps (ops : List MemOp) : DB := ops.foldl applyMemOp emptyDB

/-- Well-formedness holds along every write sequence. -/
theorem runMemOps_wf (ops : List MemOp) : dbWF (runMemOps ops) := by
  have hstep : ∀ (ops2 : List MemOp) (db : DB), dbWF db → dbWF (ops2.foldl applyMemOp db) := by
    intro ops2
    induction ops2 with
    | nil => exact fun db h => h
    | cons op rest ih =>
      intro db h
      refine ih (applyMemOp db op) ?_
      cases op with
      | ins now sess content date subj imp u am st sup conf src =>
        exact insertMemory_wf false now db sess content date subj imp u am st sup conf src h
      | setState mid ns => exact setMemoryState_wf db mid ns h
  exact hstep ops emptyDB ⟨List.Pairwise.nil, fun m hm => absurd hm (List.not_mem_nil m),
    fun m1 hm1 => absurd hm1 (List.not_mem_nil m1)⟩

/-- C1.  After every sequence of `insert_memory` and `set_memory_state`
operations, at most one `memories` row per `(user_id, content_hash)` pair
is in state `active`; an `insert_memory` of an active row whose
`(user_id, content_hash)` pair is already active inserts nothing and
returns the distinguished DUPLICATE sentinel; and a `set_memory_state`
whose transition to `active` would create a second such active row returns
false and leaves the store unchanged. -/
theorem claim_C1_active_uniqueness :
    (∀ ops : List MemOp, activeUnique (runMemOps ops)) ∧
    (∀ (now : Int) (db : DB) (sess content date subj : String) (imp : Int)
      (u am : String) (sup : Option Nat) (conf : ℚ) (src : String),
      (∃ x ∈ db.memories, x.user_id = u ∧ x.content_hash = sha256Hex content ∧
        x.state = "active") →
      insertMemory false now db sess content date subj imp u am "active" sup conf src
        = (.duplicate, db)) ∧
    (∀ (db : DB) (mid : Nat) (m : MemRow),
      db.memories.Pairwise (fun a b => a.id < b.id) →
      m ∈ db.memories → m.id = mid → m.state ≠ "active" →
      (∃ x ∈ db.memories, x.id ≠ mid ∧ x.user_id = m.user_id ∧
        x.content_hash = m.content_hash ∧ x.state = "active") →
      setMemoryState db mid "active" = (false, db)) := by
  refine ⟨fun ops => (runMemOps_wf ops).2.2, ?_, ?_⟩
  · intro now db sess content date subj imp u am sup conf src hex
    unfold insertMemory
    rw [if_neg Bool.false_ne_true]
    dsimp only
    rw [if_pos ⟨rfl, hex⟩]
  · intro db mid m hpw hm hid hdiff hex
    unfold setMemoryState
    cases hf : db.memories.find? (fun x => decide (x.id = mid ∧ x.state ≠ "active")) with
    | none => rfl
    | some m2 =>
      have hp := List.find?_some hf
      rw [decide_eq_true_eq] at hp
      have hmem2 := List.mem_of_find?_eq_some hf
      have hm2 : m2 = m := mem_id_unique hpw hmem2 hm (hp.1.trans hid.symm)
      subst hm2
      dsimp only
      rw [if_pos ⟨rfl, hex⟩]

/-- An active row for `(u1, "c")`. -/
def c1RowActive : MemRow :=
  { id := 1, session_id := "s", user_id := "u1", memory_date := "d", subject := "S",
    importance := 3, access_mode := "private", state := "active",
    supersedes_memory_id := none, confidence_score := mkRat 1 1, source := "manual",
    content_hash := "c", created_at := 0 }

/-- A superseded row for the same `(u1, "c")` pair. -/
def c1RowSuperseded : MemRow :=
  { id := 2, session_id := "s", user_id := "u1", memory_date := "d", subject := "S",
    importance := 3, access_mode := "private", state := "superseded",
    supersedes_memory_id := none, confidence_score := mkRat 1 1, source := "manual",
    content_hash := "c", created_at := 0 }

/-- A store holding the active and the superseded row. -/
def c1DB : DB :=
  { memories := [c1RowActive, c1RowSuperseded], versions := [], rate_limits := [], nextId := 3 }

/-- C1 witness: the invariant after one concrete write; a duplicate insert
against `c1DB` bounces with the sentinel; reactivating the superseded twin
fails and leaves the store unchanged. -/
theorem claim_C1_witness :
    activeUnique (runMemOps
      [MemOp.ins 1 "s" "hello world" "d" "S" 3 "u1" "private" "active" none
        (mkRat 1 1) "manual"]) ∧
    insertMemory false 5 c1DB "s" "c" "d" "S" 3 "u1" "private" "active" none
      (mkRat 1 1) "manual" = (.duplicate, c1DB) ∧
    setMemoryState c1DB 2 "active" = (false, c1DB) :=
  ⟨claim_C1_active_uniqueness.1 _,
    claim_C1_active_uniqueness.2.1 5 c1DB "s" "c" "d" "S" 3 "u1" "private" none
      (mkRat 1 1) "manual" ⟨c1RowActive, by decide, by decide, by decide, by decide⟩,
    claim_C1_active_uniqueness.2.2 c1DB 2 c1RowSuperseded (by decide) (by decide) (by decide)
      (by decide) ⟨c1RowActive, by decide, by decide, by decide, by decide, by decide⟩⟩

/-! ## C2: precedence resolution on lexical conflict -/

/-- Every row of `get_active_memories_by_subject` comes from an active
`memories` row of that session, user and subject with matching fields. -/
theorem getActive_mem {db : DB} {sess u subj : String} {c : ActiveMem}
    (h : c ∈ getActiveMemoriesBySubject false db sess u subj) :
    ∃ r ∈ db.memories, r.id = c.id ∧ r.session_id = sess ∧ r.user_id = u ∧
      r.subject = subj ∧ r.state = "active" ∧ r.source = c.source ∧
      r.confidence_score = c.confidence_score := by
  unfold getActiveMemoriesBySubject at h
  rw [if_neg Bool.false_ne_true] at h
  obtain ⟨m, hmf, hmap⟩ := List.mem_filterMap.mp h
  obtain ⟨hmem, hp⟩ := List.mem_filter.mp hmf
  rw [decide_eq_true_eq] at hp
  obtain ⟨v, hv, rfl⟩ := Option.map_eq_some'.mp hmap
  exact ⟨m, hmem, rfl, hp.1, hp.2.1, hp.2.2.1, hp.2.2.2, rfl, rfl⟩

/-- The state produced by a successful supersede: the conflict row demoted,
the new active row appended with its version-1 content. -/
def supersededDB (now : Int) (db : DB) (sess content date subj : String) (imp : Int)
    (u am : String) (conf : ℚ) (src : String) (cid : Nat) : DB :=
  { memories := db.memories.map (applyStateUpd cid "superseded") ++
      [{ id := db.nextId, session_id := sess, user_id := u, memory_date := date,
         subject := subj, importance := imp, access_mode := am, state := "active",
         supersedes_memory_id := some cid, confidence_score := conf, source := src,
         content_hash := sha256Hex content, created_at := now }],
    versions := db.versions ++ [{ memory_id := db.nextId, content := content, version := 1 }],
    rate_limits := db.rate_limits, nextId := db.nextId + 1 }

/-- C2 amended: when a lexical conflict is found whose trimmed content
differs from the incoming trimmed content, the outcome is REJECT exactly
when the incoming source weight is strictly lower than the conflict's, or
the weights are equal and the incoming confidence is strictly lower; in
every other case — equal weight with equal confidence included — the
incoming supersedes the existing row, PROVIDED no other active row of that
user already carries the incoming content hash (without that proviso the
supersede insert hits the uniqueness index and the call ends in a
max-retries error instead, per the counterexample). -/
theorem claim_C2_amended (now : Int) (db : DB)
    (sess content date subj : String) (imp : Int) (u am : String) (conf : ℚ) (src : String)
    (c : ActiveMem)
    (hconf : findConflict content (getActiveMemoriesBySubject false db sess u subj) = some c)
    (htrim : pyStrip content ≠ pyStrip c.content)
    (hnodup : ¬∃ x ∈ db.memories, x.id ≠ c.id ∧ x.user_id = u ∧
      x.content_hash = sha256Hex content ∧ x.state = "active") :
    ((evaluateAndStore false false now db sess content date subj imp u am conf
        src).1.status = "rejected" ↔
      (precedenceGet src < precedenceGet c.source ∨
        (precedenceGet src = precedenceGet c.source ∧ conf < c.confidence_score))) ∧
    (¬(precedenceGet src < precedenceGet c.source ∨
        (precedenceGet src = precedenceGet c.source ∧ conf < c.confidence_score)) →
      (evaluateAndStore false false now db sess content date subj imp u am conf src).1
        = { status := "success", stored := true, memory_id := some db.nextId,
            reason_code := some "SUPERSEDE_REASON_CONTENT_OVERLAP" } ∧
      (∃ x ∈ (evaluateAndStore false false now db sess content date subj imp u am conf
          src).2.memories, x.id = c.id ∧ x.state = "superseded") ∧
      (∃ x ∈ (evaluateAndStore false false now db sess content date subj imp u am conf
          src).2.memories, x.id = db.nextId ∧ x.state = "active" ∧
        x.supersedes_memory_id = some c.id)) := by
  have hc_mem : c ∈ getActiveMemoriesBySubject false db sess u subj :=
    List.mem_of_find?_eq_some hconf
  obtain ⟨r, hr, hrid, hrsess, hru, hrsubj, hrstate, hrsrc, hrconf⟩ := getActive_mem hc_mem
  by_cases hpred : (precedenceGet src < precedenceGet c.source ∨
      (precedenceGet src = precedenceGet c.source ∧ conf < c.confidence_score))
  · have hres : evaluateAndStore false false now db sess content date subj imp u am conf src
        = ({ status := "rejected", stored := false,
             detail := some "A higher or equal priority memory already exists for this topic.",
             reason_code := some "REJECT_REASON_PRECEDENCE_TOO_LOW" }, db) := by
      unfold evaluateAndStore
      rw [evalLoop]
      dsimp only
      rw [hconf]
      dsimp only
      rw [if_neg htrim, if_pos hpred]
    rw [hres]
    exact ⟨⟨fun _ => hpred, fun _ => rfl⟩, fun hn => absurd hpred hn⟩
  · -- the supersede path
    have hrcond : r.id = c.id ∧ r.state ≠ "superseded" :=
      ⟨hrid, by rw [hrstate]; decide⟩
    have hset : setMemoryState db c.id "superseded"
        = (true, { db with
            memories := db.memories.map (applyStateUpd c.id "superseded") }) := by
      unfold setMemoryState
      cases hfind : db.memories.find?
          (fun x => decide (x.id = c.id ∧ x.state ≠ "superseded")) with
      | none =>
        have hcontra := List.find?_eq_none.mp hfind r hr
        rw [decide_eq_true_eq] at hcontra
        exact absurd hrcond hcontra
      | some r2 =>
        dsimp only
        rw [if_neg (fun hcc => absurd hcc.1 (by decide))]
    have hguard2 : ¬("active" = "active" ∧
        ∃ x ∈ (db.memories.map (applyStateUpd c.id "superseded")),
          x.user_id = u ∧ x.content_hash = sha256Hex content ∧ x.state = "active") := by
      rintro ⟨-, x, hx, hxu, hxh, hxs⟩
      obtain ⟨y, hy, rfl⟩ := List.mem_map.mp hx
      by_cases hcy : y.id = c.id ∧ y.state ≠ "superseded"
      · rw [applyStateUpd_pos _ _ _ hcy] at hxs
        simp at hxs
      · rw [applyStateUpd_neg _ _ _ hcy] at hxu hxh hxs
        apply hnodup
        refine ⟨y, hy, ?_, hxu, hxh, hxs⟩
        intro hyid
        exact hcy ⟨hyid, by rw [hxs]; decide⟩
    have hres : evaluateAndStore false false now db sess content date subj imp u am conf src
        = ({ status := "success", stored := true, memory_id := some db.nextId,
             reason_code := some "SUPERSEDE_REASON_CONTENT_OVERLAP" },
           supersededDB now db sess content date subj imp u am conf src c.id) := by
      unfold evaluateAndStore
      rw [evalLoop]
      dsimp only
      rw [hconf]
      dsimp only
      rw [if_neg htrim, if_neg hpred, hset]
      dsimp only
      unfold insertMemory
      rw [if_neg Bool.false_ne_true]
      dsimp only
      rw [if_neg hguard2]
      rfl
    rw [hres]
    dsimp only [supersededDB]
    refine ⟨⟨fun hs => absurd hs (by decide), fun hp => absurd hp hpred⟩, fun _ => ?_⟩
    refine ⟨rfl, ?_, ?_⟩
    · refine ⟨{ r with state := "superseded" }, ?_, hrid, rfl⟩
      exact List.mem_append_left _
        (List.mem_map.mpr ⟨r, hr, applyStateUpd_pos _ _ _ hrcond⟩)
    · refine ⟨_, List.mem_append_right _ (List.mem_singleton.mpr rfl), rfl, rfl, rfl⟩

/-- The first stored fact: `p q r x y` (will be the scan-order conflict). -/
def dbA : DB :=
  (insertMemory false 1 emptyDB "s" "p q r x y" "2026-02-27" "S" 3 "u1" "private" "active"
    none (mkRat 3 5) "inferred").2

/-- The second stored fact: `p q r s t`, active alongside the first (their
hashes differ). -/
def dbB : DB :=
  (insertMemory false 2 dbA "s" "p q r s t" "2026-02-27" "S" 3 "u1" "private" "active"
    none (mkRat 3 5) "inferred").2

/-- C2 as stated is false: proposing `p q r s t` against `dbB` finds the
lexical conflict `p q r x y` (trimmed contents differ, equal source weight
and equal confidence, so the claim promises a supersede), yet the incoming
content is byte-identical to the *other* active row, so every supersede
attempt dies on the uniqueness index, and after five OCC retries the call
returns a max-retries error — neither a REJECT nor a supersede. -/
theorem claim_C2_counterexample :
    (findConflict "p q r s t" (getActiveMemoriesBySubject false dbB "s" "u1" "S")
        = some ⟨1, "p q r x y", mkRat 3 5, "inferred", 3⟩) ∧
    pyStrip "p q r s t" ≠ pyStrip "p q r x y" ∧
    ¬(precedenceGet "inferred" < precedenceGet "inferred" ∨
      (precedenceGet "inferred" = precedenceGet "inferred" ∧ mkRat 3 5 < mkRat 3 5)) ∧
    (evaluateAndStore false false 3 dbB "s" "p q r s t" "2026-02-27" "S" 3 "u1" "private"
      (mkRat 3 5) "inferred").1
      = { status := "error",
          reason := some "Max OCC retries (5) exceeded due to high contention." } := by
  exact ⟨by decide, by decide, by decide, by decide⟩

/-- One active inferred fact `k l m n o` at confidence 0.6. -/
def c2DB : DB :=
  (insertMemory false 1 emptyDB "s" "k l m n o" "2026-02-27" "S" 3 "u1" "private" "active"
    none (mkRat 3 5) "inferred").2

/-- C2 witness: the amended rule applied to an equal-weight, equal-confidence
conflict with no hash twin: the REJECT test is false and the incoming
supersedes. -/
theorem claim_C2_witness :
    ((evaluateAndStore false false 2 c2DB "s" "k l m x y" "2026-02-27" "S" 3 "u1" "private"
        (mkRat 3 5) "inferred").1.status = "rejected" ↔
      (precedenceGet "inferred" < precedenceGet "inferred" ∨
        (precedenceGet "inferred" = precedenceGet "inferred" ∧ mkRat 3 5 < mkRat 3 5))) ∧
    (¬(precedenceGet "inferred" < precedenceGet "inferred" ∨
        (precedenceGet "inferred" = precedenceGet "inferred" ∧ mkRat 3 5 < mkRat 3 5)) →
      (evaluateAndStore false false 2 c2DB "s" "k l m x y" "2026-02-27" "S" 3 "u1" "private"
        (mkRat 3 5) "inferred").1
        = { status := "success", stored := true, memory_id := some 2,
            reason_code := some "SUPERSEDE_REASON_CONTENT_OVERLAP" } ∧
      (∃ x ∈ (evaluateAndStore false false 2 c2DB "s" "k l m x y" "2026-02-27" "S" 3 "u1"
          "private" (mkRat 3 5) "inferred").2.memories, x.id = 1 ∧ x.state = "superseded") ∧
      (∃ x ∈ (evaluateAndStore false false 2 c2DB "s" "k l m x y" "2026-02-27" "S" 3 "u1"
          "private" (mkRat 3 5) "inferred").2.memories, x.id = 2 ∧ x.state = "active" ∧
        x.supersedes_memory_id = some 1)) :=
  claim_C2_amended 2 c2DB "s" "k l m x y" "2026-02-27" "S" 3 "u1" "private" (mkRat 3 5)
    "inferred" ⟨1, "k l m n o", mkRat 3 5, "inferred", 3⟩ (by decide) (by decide) (by decide)
